import Mathlib

/-!
# Verification of the rates endpoint (`solution/rates.py`)

Shallow embedding of the rates API core: date parsing and comparison
(`datetime.strptime`/`datetime` ordering), the region hierarchy resolver
(`get_all_regions_within`), parameter validation (`normalize_params`),
SQL text construction (`construct_rates_sql`), the relational semantics of
the constructed aggregate query as executed by PostgreSQL, and the result
mapper (`get_data`).

Conventions:
* Python dictionaries holding the four request parameters are embedded as a
  record (`RawParams` for the input, `NormState` for the mutated mapping);
  the Python code mutates the dict in place, which is embedded as explicit
  state passing, the returned `NormState` being the final contents of the
  caller's mapping.
* Store round-trips (`is_region`, `is_port_code`, `get_region_children`)
  are evaluated against an explicit `Store` of table rows, and every store
  call is logged in a `StoreCall` trace so that claims about which lookups
  are (not) performed are expressible.
* The `while` loop of `get_all_regions_within` is embedded with explicit
  fuel; `none` means the loop has not finished within the given fuel.
* Calendar days at the query level are embedded as `Int` day numbers
  (PostgreSQL stores `date` as a day count; Python's `date.toordinal` is
  the same order isomorphism).  `toordinal` maps a parsed `Date` to its
  Python ordinal (0001-01-01 is day 1).
-/

namespace Ratestask

/-! ## Dates -/

/-- A parsed calendar date, as produced by
`datetime.strptime(value, "%Y-%m-%d")` (the time-of-day part is always
midnight and is dropped). -/
structure Date where
  year : Nat
  month : Nat
  day : Nat
deriving DecidableEq

/-- Python `datetime` comparison restricted to dates: lexicographic on
(year, month, day). -/
def dateLt (a b : Date) : Bool :=
  decide (a.year < b.year) ||
    (decide (a.year = b.year) && (decide (a.month < b.month) ||
      (decide (a.month = b.month) && decide (a.day < b.day))))

/-- Gregorian leap-year rule, as used by `datetime`. -/
def is_leap_year (y : Nat) : Bool :=
  decide (y % 4 = 0 ∧ (¬ y % 100 = 0 ∨ y % 400 = 0))

/-- Number of days in a month (1-12) of a given year. -/
def days_in_month (y m : Nat) : Nat :=
  if m = 2 then (if is_leap_year y then 29 else 28)
  else if m = 4 ∨ m = 6 ∨ m = 9 ∨ m = 11 then 30
  else 31

/-- Value of a list of decimal digit characters. -/
def digits_to_nat (l : List Char) : Nat :=
  List.foldl (fun a c => a * 10 + (c.toNat - 48)) 0 l

/-- Python `str.lower()` / SQL `LOWER(...)`: lowercase character by
character (identical on the ASCII identifiers involved). -/
def str_lower (s : String) : String := String.mk (s.data.map Char.toLower)

/-- Split a character list on `-` separators (the shape of the
`%Y-%m-%d` format): the groups between dashes, like `splitOn "-"`. -/
def split_dash : List Char → List (List Char)
  | [] => [[]]
  | c :: cs =>
    if c = '-' then [] :: split_dash cs
    else
      match split_dash cs with
      | g :: gs => (c :: g) :: gs
      | [] => [[c]]

/-- `datetime.strptime(s, "%Y-%m-%d")`, returning `none` where Python raises
`ValueError`.  CPython compiles the format to the regular expression
`\d{4}-(1[0-2]|0[1-9]|[1-9])-(3[01]|[12]\d|0[1-9]|[1-9])` (full match), then
builds the `datetime`, which validates the day against the month length and
rejects year 0.  Because the digit groups cannot contain a dash, full-match
against that pattern is equivalent to splitting on `-` into exactly three
all-digit groups of the right lengths and checking the ranges. -/
def parseDate (s : String) : Option Date :=
  match split_dash s.data with
  | [ys, ms, ds] =>
    if (ys.length = 4 ∧ ys.all Char.isDigit = true) ∧
       ((ms.length = 1 ∨ ms.length = 2) ∧ ms.all Char.isDigit = true) ∧
       ((ds.length = 1 ∨ ds.length = 2) ∧ ds.all Char.isDigit = true) then
      let y := digits_to_nat ys
      let m := digits_to_nat ms
      let d := digits_to_nat ds
      if 1 ≤ y ∧ 1 ≤ m ∧ m ≤ 12 ∧ 1 ≤ d ∧ d ≤ days_in_month y m then
        some ⟨y, m, d⟩
      else none
    else none
  | _ => none

/-- Days in all years before year `y` (Python `datetime._days_before_year`). -/
def days_before_year (y : Nat) : Nat :=
  (y - 1) * 365 + (y - 1) / 4 - (y - 1) / 100 + (y - 1) / 400

/-- Days in year `y` before month `m` (Python `datetime._days_before_month`). -/
def days_before_month (y m : Nat) : Nat :=
  ((List.range (m - 1)).map (fun i => days_in_month y (i + 1))).sum

/-- Python's `date.toordinal`: 0001-01-01 is day 1.  PostgreSQL's internal
`date` representation is the same day count up to a constant shift, so this
is the bridge between parsed dates and query-level day numbers. -/
def toordinal (d : Date) : Nat :=
  days_before_year d.year + days_before_month d.year d.month + d.day

/-- Civil date (year, month, day) of a Python ordinal day number, via the
standard O(1) civil-from-days conversion. -/
def civilFromOrdinal (n : Int) : Int × Nat × Nat :=
  let z : Int := n + 305
  let era : Int := Int.fdiv z 146097
  let doe : Nat := (z - era * 146097).toNat
  let yoe : Nat := (doe - doe / 1460 + doe / 36524 - doe / 146096) / 365
  let doy : Nat := doe - (365 * yoe + yoe / 4 - yoe / 100)
  let mp : Nat := (5 * doy + 2) / 153
  let d : Nat := doy - (153 * mp + 2) / 5 + 1
  let m : Nat := if mp < 10 then mp + 3 else mp - 9
  let y : Int := era * 400 + yoe + (if m ≤ 2 then 1 else 0)
  (y, m, d)

/-- Zero-pad the decimal representation of `n` to width `w`. -/
def pad_zeros (w n : Nat) : String :=
  let s := toString n
  String.mk (List.replicate (w - s.length) '0') ++ s

/-- PostgreSQL `TO_CHAR(day, 'YYYY-mm-dd')` on a day number. -/
def to_char_yyyymmdd (day : Int) : String :=
  let c := civilFromOrdinal day
  pad_zeros 4 c.1.toNat ++ "-" ++ pad_zeros 2 c.2.1 ++ "-" ++ pad_zeros 2 c.2.2

/-! ## The store

Row types for the tables the queries touch (`regions (slug, parent_slug)`,
`ports (code, parent_slug)`, `prices (orig_code, dest_code, day, price)`,
`alldates (day)`); columns the queries never read are omitted. -/

structure RegionRow where
  slug : String
  parent_slug : Option String
deriving DecidableEq

structure PortRow where
  code : String
  parent_slug : Option String
deriving DecidableEq

structure PriceRow where
  orig_code : String
  dest_code : String
  day : Int
  price : Int
deriving DecidableEq

structure Store where
  regions : List RegionRow
  ports : List PortRow
  prices : List PriceRow
  alldates : List Int
deriving DecidableEq

/-- `RatesEndpoint.is_region`:
`SELECT * FROM regions WHERE LOWER(slug)=%s` has a row. -/
def is_region (st : Store) (region_slug : String) : Bool :=
  st.regions.any (fun r => decide (str_lower r.slug = region_slug))

/-- `RatesEndpoint.is_port_code`:
`SELECT * FROM ports WHERE LOWER(code)=%s` has a row. -/
def is_port_code (st : Store) (code : String) : Bool :=
  st.ports.any (fun p => decide (str_lower p.code = code))

/-- `RatesEndpoint.get_region_children`:
`SELECT slug FROM regions WHERE parent_slug=%s`. -/
def get_region_children (st : Store) (region_slug : String) : List String :=
  (st.regions.filter (fun r => decide (r.parent_slug = some region_slug))).map (fun r => r.slug)

/-- One store round-trip, for the call trace. -/
inductive StoreCall where
  | is_region (slug : String)
  | is_port_code (code : String)
  | get_region_children (slug : String)
deriving DecidableEq

/-- Is a trace entry a `ports`-table lookup? -/
def isPortCall : StoreCall → Bool
  | .is_port_code _ => true
  | _ => false

/-! ## Region hierarchy resolver -/

/-- The `while next_to_check < len(regions)` loop of
`RatesEndpoint.get_all_regions_within`, with explicit fuel.  Returns the
final `regions` list, the final cursor, and the trace of
`get_region_children` calls made. -/
def expandLoop (st : Store) : Nat → List String → Nat → List StoreCall →
    List String × Nat × List StoreCall
  | 0, regions, next_to_check, tr => (regions, next_to_check, tr)
  | fuel + 1, regions, next_to_check, tr =>
    if h : next_to_check < regions.length then
      expandLoop st fuel
        (regions ++ get_region_children st (regions.get ⟨next_to_check, h⟩))
        (next_to_check + 1)
        (tr ++ [StoreCall.get_region_children (regions.get ⟨next_to_check, h⟩)])
    else (regions, next_to_check, tr)

/-- `RatesEndpoint.get_all_regions_within(region_slug)`: seed the list with
the region itself and run the cursor loop.  The result is `none` when the
loop has not terminated within `fuel` iterations. -/
def get_all_regions_within (st : Store) (fuel : Nat) (region_slug : String) :
    Option (List String) × List StoreCall :=
  let r := expandLoop st fuel [region_slug] 0 []
  (if r.2.1 < r.1.length then none else some r.1, r.2.2)

/-- Transitive reachability along `get_region_children` edges: `y` is `x`
itself or a descendant of `x` in the parent-pointer relation. -/
inductive ReachesFrom (st : Store) : String → String → Prop
  | refl (x : String) : ReachesFrom st x x
  | step {x y z : String} : ReachesFrom st x y → z ∈ get_region_children st y →
      ReachesFrom st x z

/-! ## Validation (`normalize_params`) -/

/-- `ValidationError(field, msg)`. -/
structure ValidationError where
  field : String
  msg : String
deriving DecidableEq

/-- A value stored in the parameter dictionary: the Python code keeps
strings, parsed datetimes, booleans and tuples of strings in it. -/
inductive PVal where
  | s (v : String)
  | d (v : Date)
  | b (v : Bool)
  | strs (v : List String)
deriving DecidableEq

/-- The contents of the parameter dictionary as mutated by
`normalize_params`.  The four request fields are always present (the route
builds them); `none` in the remaining fields means the key has not been
added (yet). -/
structure NormState where
  date_from : PVal
  date_to : PVal
  origin : PVal
  destination : PVal
  origin_is_region : Option Bool := none
  destination_is_region : Option Bool := none
  origin_parents : Option (List String) := none
  destination_parents : Option (List String) := none
deriving DecidableEq

/-- The four raw string parameters, in the route's insertion order
`date_from, date_to, origin, destination`. -/
structure RawParams where
  date_from : String
  date_to : String
  origin : String
  destination : String
deriving DecidableEq

/-- A single-quote character, used by Python `repr` of a string. -/
def sq : String := String.singleton (Char.ofNat 39)

/-- Python `repr` of a string value, as interpolated by the f-string error
messages (exact for values without quotes, backslashes or control
characters, which is all the theorems use). -/
def pyRepr (s : String) : String := sq ++ s ++ sq

def blank_msg : String := "This field cannot be blank."

def bad_date_msg (v : String) : String :=
  pyRepr v ++ " is not a valid date in YYYY-mm-dd format."

def order_msg : String := "date_to cannot be before date_from."

def bad_endpoint_msg (v : String) : String :=
  pyRepr v ++ " is not a valid region slug or port code."

/-- The dictionary after the first loop of `normalize_params`
(`params[key] = params[key].lower()` for every key). -/
def lowered_state (p : RawParams) : NormState :=
  { date_from := PVal.s (str_lower p.date_from)
    date_to := PVal.s (str_lower p.date_to)
    origin := PVal.s (str_lower p.origin)
    destination := PVal.s (str_lower p.destination) }

/-- Classification of one endpoint value (`origin` or `destination`):
always look it up in `regions`; look it up in `ports` only when it is not a
region (Python's `not is_region and not self.is_port_code(...)`
short-circuits).  Returns the region flag, whether the value is valid, and
the trace of lookups performed. -/
def classify (st : Store) (v : String) : Bool × Bool × List StoreCall :=
  let r := is_region st v
  if r then (r, true, [StoreCall.is_region v])
  else if is_port_code st v then
    (r, true, [StoreCall.is_region v, StoreCall.is_port_code v])
  else (r, false, [StoreCall.is_region v, StoreCall.is_port_code v])

/-- The `if params["origin_is_region"]:` block: attach the expanded region
list as `origin_parents` (the Python code stores a tuple; embedded as the
list).  `none` propagates non-termination of the expansion loop. -/
def attach_origin_parents (st : Store) (fuel : Nat) (og : String) (s : NormState) :
    Option (NormState × List StoreCall) :=
  if s.origin_is_region = some true then
    match get_all_regions_within st fuel og with
    | (none, _) => none
    | (some os, tr) => some ({ s with origin_parents := some os }, tr)
  else some (s, [])

/-- The `if params["destination_is_region"]:` block. -/
def attach_destination_parents (st : Store) (fuel : Nat) (dn : String) (s : NormState) :
    Option (NormState × List StoreCall) :=
  if s.destination_is_region = some true then
    match get_all_regions_within st fuel dn with
    | (none, _) => none
    | (some ds, tr) => some ({ s with destination_parents := some ds }, tr)
  else some (s, [])

/-- `RatesEndpoint.normalize_params`, embedded with explicit state passing:
the returned `NormState` is the final contents of the caller's dictionary
(the Python code mutates it in place and, on success, returns the same
object).  The second component is the raised `ValidationError`, if any; the
third is the trace of store round-trips, in order.  `none` means the region
expansion loop of step 6 did not terminate within `fuel`. -/
def normalize_params (st : Store) (fuel : Nat) (p : RawParams) :
    Option (NormState × Option ValidationError × List StoreCall) :=
  -- for key in params: params[key] = params[key].lower()
  let df := str_lower p.date_from
  let dt := str_lower p.date_to
  let og := str_lower p.origin
  let dn := str_lower p.destination
  let s0 := lowered_state p
  -- for key in params: blank check, in insertion order
  if df = "" then some (s0, some ⟨"date_from", blank_msg⟩, [])
  else if dt = "" then some (s0, some ⟨"date_to", blank_msg⟩, [])
  else if og = "" then some (s0, some ⟨"origin", blank_msg⟩, [])
  else if dn = "" then some (s0, some ⟨"destination", blank_msg⟩, [])
  else
    -- for key in ["date_from", "date_to"]: params[key] = strptime(...)
    match parseDate df with
    | none => some (s0, some ⟨"date_from", bad_date_msg df⟩, [])
    | some ddf =>
      let s1 := { s0 with date_from := PVal.d ddf }
      match parseDate dt with
      | none => some (s1, some ⟨"date_to", bad_date_msg dt⟩, [])
      | some ddt =>
        let s2 := { s1 with date_to := PVal.d ddt }
        -- if params["date_to"] < params["date_from"]
        if dateLt ddt ddf then some (s2, some ⟨"date_to", order_msg⟩, [])
        else
          -- for key in ["origin", "destination"]: classification
          let co := classify st og
          let s3 := { s2 with origin_is_region := some co.1 }
          if co.2.1 = false then
            some (s3, some ⟨"origin", bad_endpoint_msg og⟩, co.2.2)
          else
            let cd := classify st dn
            let s4 := { s3 with destination_is_region := some cd.1 }
            if cd.2.1 = false then
              some (s4, some ⟨"destination", bad_endpoint_msg dn⟩, co.2.2 ++ cd.2.2)
            else
              match attach_origin_parents st fuel og s4 with
              | none => none
              | some (s5, trO) =>
                match attach_destination_parents st fuel dn s5 with
                | none => none
                | some (s6, trD) =>
                  some (s6, none, co.2.2 ++ cd.2.2 ++ trO ++ trD)

/-! ## Query text construction (`construct_rates_sql`) -/

def origin_clause_region : String := "orig_port.parent_slug IN %(origin_parents)s"

def origin_clause_code : String := "LOWER(orig_code) = %(origin)s"

def destination_clause_region : String := "dest_port.parent_slug IN %(destination_parents)s"

def destination_clause_code : String := "LOWER(dest_code) = %(destination)s"

/-- The fixed head of the f-string (everything before `{origin_clause}`). -/
def rates_sql_head : String :=
  "\n        SELECT\n            TO_CHAR(d.day, " ++ sq ++ "YYYY-mm-dd" ++ sq ++
  ") AS day,\n            CASE\n                WHEN COUNT(pric.day) < 3 THEN NULL\n" ++
  "                ELSE CAST(AVG(pric.price) AS int)\n            END AS average_price\n" ++
  "        FROM alldates d\n            LEFT OUTER JOIN (\n                SELECT *\n" ++
  "                FROM prices p\n" ++
  "                    LEFT OUTER JOIN ports orig_port ON p.orig_code=orig_port.code\n" ++
  "                    LEFT OUTER JOIN ports dest_port ON p.dest_code=dest_port.code\n" ++
  "                WHERE (\n                    "

/-- Between `{origin_clause}` and `{destination_clause}`. -/
def rates_sql_mid : String := " AND "

/-- The fixed tail of the f-string (everything after `{destination_clause}`);
the dynamic values appear only as `%(...)s` bound-parameter placeholders. -/
def rates_sql_tail : String :=
  "\n                )\n            ) pric ON pric.day = d.day\n        WHERE\n" ++
  "            d.day >= %(date_from)s AND\n            d.day <= %(date_to)s\n" ++
  "        GROUP BY d.day\n        ORDER BY d.day\n        "

/-- `RatesEndpoint.construct_rates_sql(params)`: the produced query text.
The Python code reads only `params["origin_is_region"]` and
`params["destination_is_region"]` to pick the clause shapes (an absent flag
would be a `KeyError`; callers always set both, and the embedding reads an
absent flag as false). -/
def construct_rates_sql (params : NormState) : String :=
  let origin_clause :=
    if params.origin_is_region = some true then origin_clause_region else origin_clause_code
  let destination_clause :=
    if params.destination_is_region = some true then destination_clause_region
    else destination_clause_code
  rates_sql_head ++ origin_clause ++ rates_sql_mid ++ destination_clause ++ rates_sql_tail

/-! ## Relational semantics of the constructed query

The constructed text is executed by PostgreSQL with the dictionary as bound
parameters.  The semantics below evaluates exactly that query over a
`Store`: the `pric` subquery is the double `LEFT OUTER JOIN` of `prices`
with `ports` filtered by the two chosen clauses; `alldates` restricted to
the date range is left-outer-joined against it on the day, grouped by day,
ordered ascending.  `CAST(AVG(...) AS int)` on the `numeric` average rounds
to the nearest integer, ties away from zero (PostgreSQL numeric-to-integer
cast semantics); the average itself is modelled exactly in `ℚ`. -/

/-- The bound parameters the execution reads from the dictionary. -/
structure QueryParams where
  origin : String
  destination : String
  origin_is_region : Bool
  destination_is_region : Bool
  origin_parents : List String
  destination_parents : List String
  date_from : Int
  date_to : Int
deriving DecidableEq

def pval_str : PVal → String
  | .s v => v
  | _ => ""

def pval_date_ordinal : PVal → Int
  | .d v => (toordinal v : Int)
  | _ => 0

/-- The bound parameters as read from a normalized dictionary
(dates are passed as day numbers, see `toordinal`). -/
def queryParamsOf (s : NormState) : QueryParams :=
  { origin := pval_str s.origin
    destination := pval_str s.destination
    origin_is_region := decide (s.origin_is_region = some true)
    destination_is_region := decide (s.destination_is_region = some true)
    origin_parents := s.origin_parents.getD []
    destination_parents := s.destination_parents.getD []
    date_from := pval_date_ordinal s.date_from
    date_to := pval_date_ordinal s.date_to }

/-- One row of the `pric` subquery before the `WHERE` filter: a price row
together with its (at most one, possibly absent) joined `orig_port` and
`dest_port` rows. -/
structure SubRow where
  p : PriceRow
  orig_port : Option PortRow
  dest_port : Option PortRow
deriving DecidableEq

/-- `LEFT OUTER JOIN ports x ON code = <code>`: all matching port rows, or a
single null-extended row when none matches. -/
def left_join_ports (ports : List PortRow) (code : String) : List (Option PortRow) :=
  let ms := ports.filter (fun pt => decide (pt.code = code))
  if ms.isEmpty then [none] else ms.map some

/-- The `FROM prices p LEFT OUTER JOIN ports orig_port ... LEFT OUTER JOIN
ports dest_port ...` product, before the `WHERE` clause. -/
def pric_sub (st : Store) : List SubRow :=
  st.prices.flatMap fun p =>
    (left_join_ports st.ports p.orig_code).flatMap fun op =>
      (left_join_ports st.ports p.dest_code).map fun dp => ⟨p, op, dp⟩

/-- `x.parent_slug IN %(parents)s` in SQL three-valued logic: a null
`parent_slug` (including the null-extended join row) is not TRUE, so the
`WHERE` drops it. -/
def slug_in_parents (port : Option PortRow) (parents : List String) : Bool :=
  match port with
  | some pt =>
    match pt.parent_slug with
    | some ps => decide (ps ∈ parents)
    | none => false
  | none => false

/-- The origin clause chosen by `construct_rates_sql`. -/
def origin_pred (qp : QueryParams) (r : SubRow) : Bool :=
  if qp.origin_is_region then slug_in_parents r.orig_port qp.origin_parents
  else decide (str_lower r.p.orig_code = qp.origin)

/-- The destination clause chosen by `construct_rates_sql`. -/
def destination_pred (qp : QueryParams) (r : SubRow) : Bool :=
  if qp.destination_is_region then slug_in_parents r.dest_port qp.destination_parents
  else decide (str_lower r.p.dest_code = qp.destination)

/-- The `pric` subquery: joined rows passing both clauses. -/
def pric_rows (st : Store) (qp : QueryParams) : List SubRow :=
  (pric_sub st).filter fun r => origin_pred qp r && destination_pred qp r

/-- `alldates d WHERE d.day >= %(date_from)s AND d.day <= %(date_to)s`. -/
def filtered_dates (st : Store) (qp : QueryParams) : List Int :=
  st.alldates.filter fun d => decide (qp.date_from ≤ d) && decide (d ≤ qp.date_to)

/-- The join partners of one calendar row of day `d` in
`alldates LEFT OUTER JOIN pric ON pric.day = d.day`: every matching
subquery row, or a single null-extended row when none matches. -/
def day_join_rows (st : Store) (qp : QueryParams) (d : Int) : List (Int × Option SubRow) :=
  let ms := (pric_rows st qp).filter fun r => decide (r.p.day = d)
  if ms.isEmpty then [(d, none)] else ms.map fun r => (d, some r)

/-- `alldates LEFT OUTER JOIN pric ON pric.day = d.day` (after the range
filter): each in-range calendar row is paired with its join partners. -/
def joined_rows (st : Store) (qp : QueryParams) : List (Int × Option SubRow) :=
  (filtered_dates st qp).flatMap (day_join_rows st qp)

/-- `GROUP BY d.day ORDER BY d.day`: the distinct day keys, ascending. -/
def group_days (st : Store) (qp : QueryParams) : List Int :=
  (List.insertionSort (· ≤ ·) ((joined_rows st qp).map Prod.fst)).dedup

/-- PostgreSQL `CAST(q AS int)` on an exact `numeric` value: round to the
nearest integer, ties away from zero (`⌊q + 1/2⌋` for nonnegative `q`,
`-⌊|q| + 1/2⌋` for negative `q`). -/
def pgRound (q : ℚ) : Int :=
  if 0 ≤ q then ⌊q + 1 / 2⌋ else -⌊1 / 2 - q⌋

/-- Truncation toward zero of a rational to an integer — the semantics the
spec ascribes to the cast ("truncation, not rounding").  Stated from the
spec's words, for comparison with `pgRound`. -/
def ratTruncTowardZero (q : ℚ) : Int := Int.tdiv q.num (q.den : Int)

/-- `pgRound` of the fraction `s / n` (`0 < n`), computed with integer
floor divisions: the executable form of the cast applied to an average of
`n` integers summing to `s`. -/
def pg_avg_int (s n : Int) : Int :=
  if 0 ≤ s then (2 * s + n) / (2 * n) else -((n - 2 * s) / (2 * n))

/-- The `average_price` column for the group of day `d`:
`CASE WHEN COUNT(pric.day) < 3 THEN NULL ELSE CAST(AVG(pric.price) AS int)
END`.  `COUNT(pric.day)` counts the group's rows with a non-null `pric`
part; `AVG` is their exact mean (see `pg_avg_int_eq_pgRound`). -/
def day_agg (st : Store) (qp : QueryParams) (d : Int) : Option Int :=
  let matched := ((joined_rows st qp).filter fun x => decide (x.1 = d)).filterMap Prod.snd
  if matched.length < 3 then none
  else some (pg_avg_int ((matched.map fun r => r.p.price).sum) (matched.length : Int))

/-- Executing the constructed query: one output row per distinct in-range
day of `alldates`, ascending, with columns
`(TO_CHAR(day, 'YYYY-mm-dd'), average_price)`. -/
def runRatesQuery (st : Store) (qp : QueryParams) : List (String × Option Int) :=
  (group_days st qp).map fun d => (to_char_yyyymmdd d, day_agg st qp d)

/-- The consecutive integers from `a` to `b` inclusive (empty for `b < a`):
the calendar days of the inclusive range, as day numbers. -/
def intRange (a b : Int) : List Int :=
  (List.range (b + 1 - a).toNat).map fun (i : Nat) => a + (i : Int)

/-! ## Result mapper (`get_data`) -/

/-- A value in a fetched result row: the `day` text or the nullable integer
`average_price`. -/
inductive SqlValue where
  | s (v : String)
  | i (v : Int)
  | null
deriving DecidableEq

/-- `[desc[0] for desc in self.cur.description]` for the constructed query:
the two output column names. -/
def rates_colnames : List String := ["day", "average_price"]

/-- `[dict(zip(colnames, row)) for row in results]`: each fetched row
becomes a mapping from column names to that row's values (the keys are
distinct, so the association list is the dict). -/
def get_data_rows (colnames : List String) (results : List (List SqlValue)) :
    List (List (String × SqlValue)) :=
  results.map fun row => colnames.zip row

def sql_val_of_avg : Option Int → SqlValue
  | some n => SqlValue.i n
  | none => SqlValue.null

/-- `RatesEndpoint.get_data`: normalize (propagating `ValidationError`),
build the query text, execute it (`runRatesQuery` is the semantics of the
text `construct_rates_sql` produces, with the dictionary as bound
parameters), and map rows to dictionaries. -/
def get_data (st : Store) (fuel : Nat) (p : RawParams) :
    Option (Except ValidationError (List (List (String × SqlValue)))) :=
  match normalize_params st fuel p with
  | none => none
  | some (_, some e, _) => some (Except.error e)
  | some (ns, none, _) =>
    let rows := runRatesQuery st (queryParamsOf ns)
    some (Except.ok (get_data_rows rates_colnames
      (rows.map fun r => [SqlValue.s r.1, sql_val_of_avg r.2])))

/-! ## Concrete instances used by counterexamples and witnesses -/

/-- The day number of 2016-01-01 (Python ordinal 735964). -/
def d2016 : Int := (toordinal ⟨2016, 1, 1⟩ : Int)

/-- A store with three price observations (1, 2, 2) on 2016-01-01 for the
terminal route `a → b`: their mean is 5/3. -/
def c1store : Store :=
  { regions := [], ports := [],
    prices := [⟨"a", "b", d2016, 1⟩, ⟨"a", "b", d2016, 2⟩, ⟨"a", "b", d2016, 2⟩],
    alldates := [d2016] }

/-- The bound parameters of a validated terminal-to-terminal query for the
single day 2016-01-01. -/
def c1qp : QueryParams :=
  { origin := "a", destination := "b", origin_is_region := false,
    destination_is_region := false, origin_parents := [], destination_parents := [],
    date_from := d2016, date_to := d2016 }

/-- A store whose calendar table covers 2016-01-01..2016-01-02 and that
holds no price observations. -/
def c2store : Store :=
  { regions := [], ports := [], prices := [], alldates := [d2016, d2016 + 1] }

/-- Validated terminal-to-terminal parameters for the two-day range
2016-01-01..2016-01-02. -/
def c2qp : QueryParams :=
  { origin := "a", destination := "b", origin_is_region := false,
    destination_is_region := false, origin_parents := [], destination_parents := [],
    date_from := d2016, date_to := d2016 + 1 }

/-- A regions table whose parent pointers form the two-cycle
`a → b → a`: `get_region_children` of `"a"` is `["b"]` and of `"b"` is
`["a"]`. -/
def cycStore : Store :=
  { regions := [⟨"b", some "a"⟩, ⟨"a", some "b"⟩], ports := [], prices := [], alldates := [] }

/-- A store with empty tables (every lookup misses). -/
def emptyStore : Store := { regions := [], ports := [], prices := [], alldates := [] }

/-- Raw parameters with valid dates and endpoints unknown to the store. -/
def p_unknown_origin : RawParams := ⟨"2016-01-01", "2016-01-02", "AAA", "BBB"⟩

/-- Raw parameters with an inverted date range. -/
def p_inverted : RawParams := ⟨"2016-01-02", "2016-01-01", "aaa", "bbb"⟩

/-- A store in which `r1` and `r2` are both region slugs and port codes
(present in both tables), with no child regions. -/
def w6store : Store :=
  { regions := [⟨"r1", none⟩, ⟨"r2", none⟩], ports := [⟨"r1", none⟩, ⟨"r2", none⟩],
    prices := [], alldates := [] }

/-- Raw parameters whose endpoints are `r1` and `r2` (origin upper-cased to
exercise lowercasing). -/
def p_both_regions : RawParams := ⟨"2016-01-01", "2016-01-02", "R1", "r2"⟩

/-- The final dictionary contents for `normalize_params w6store 2
p_both_regions`. -/
def w6state : NormState :=
  { date_from := PVal.d ⟨2016, 1, 1⟩, date_to := PVal.d ⟨2016, 1, 2⟩,
    origin := PVal.s "r1", destination := PVal.s "r2",
    origin_is_region := some true, destination_is_region := some true,
    origin_parents := some ["r1"], destination_parents := some ["r2"] }

/-- The store-call trace for `normalize_params w6store 2 p_both_regions`. -/
def w6trace : List StoreCall :=
  [StoreCall.is_region "r1", StoreCall.is_region "r2",
   StoreCall.get_region_children "r1", StoreCall.get_region_children "r2"]

/-- Raw parameters whose origin is the region `r1` and whose destination
matches neither table of `w6store`. -/
def p_bad_destination : RawParams := ⟨"2016-01-01", "2016-01-02", "r1", "zzz"⟩

/-- A validated dictionary: terminal-to-terminal, route `cnsgh → abc`,
range 2016-01-01..2016-01-02. -/
def w8s1 : NormState :=
  { date_from := PVal.d ⟨2016, 1, 1⟩, date_to := PVal.d ⟨2016, 1, 2⟩,
    origin := PVal.s "cnsgh", destination := PVal.s "abc",
    origin_is_region := some false, destination_is_region := some false }

/-- Another validated terminal-to-terminal dictionary with entirely
different values but the same classification flags as `w8s1`. -/
def w8s2 : NormState :=
  { date_from := PVal.d ⟨2017, 6, 30⟩, date_to := PVal.d ⟨2017, 7, 4⟩,
    origin := PVal.s "xyz", destination := PVal.s "qrs",
    origin_is_region := some false, destination_is_region := some false }

/-! ## Theorems -/

/-- Helper: the order-inversion failure of `normalize_params`: all four
fields are already lowercased and both dates already replaced by their
parsed values when the error is raised. -/
theorem norm_order_fail (st : Store) (fuel : Nat) (p : RawParams) (ddf ddt : Date)
    (h1 : str_lower p.date_from ≠ "") (h2 : str_lower p.date_to ≠ "")
    (h3 : str_lower p.origin ≠ "") (h4 : str_lower p.destination ≠ "")
    (h5 : parseDate (str_lower p.date_from) = some ddf)
    (h6 : parseDate (str_lower p.date_to) = some ddt)
    (h7 : dateLt ddt ddf = true) :
    normalize_params st fuel p =
      some ({ lowered_state p with date_from := PVal.d ddf, date_to := PVal.d ddt },
        some ⟨"date_to", order_msg⟩, []) := by
  simp [normalize_params, h1, h2, h3, h4, h5, h6, h7]

/-- Helper: a blank `date_from` (after lowercasing) fails first, with all
four fields already lowercased and no store lookups. -/
theorem norm_blank_date_from (st : Store) (fuel : Nat) (p : RawParams)
    (h1 : str_lower p.date_from = "") :
    normalize_params st fuel p =
      some (lowered_state p, some ⟨"date_from", blank_msg⟩, []) := by
  simp [normalize_params, h1]

/-- Helper: a blank `date_to` fails next. -/
theorem norm_blank_date_to (st : Store) (fuel : Nat) (p : RawParams)
    (h1 : str_lower p.date_from ≠ "") (h2 : str_lower p.date_to = "") :
    normalize_params st fuel p =
      some (lowered_state p, some ⟨"date_to", blank_msg⟩, []) := by
  simp [normalize_params, h1, h2]

/-- Helper: a blank `origin` fails next. -/
theorem norm_blank_origin (st : Store) (fuel : Nat) (p : RawParams)
    (h1 : str_lower p.date_from ≠ "") (h2 : str_lower p.date_to ≠ "")
    (h3 : str_lower p.origin = "") :
    normalize_params st fuel p =
      some (lowered_state p, some ⟨"origin", blank_msg⟩, []) := by
  simp [normalize_params, h1, h2, h3]

/-- Helper: a blank `destination` fails last among the blank checks. -/
theorem norm_blank_destination (st : Store) (fuel : Nat) (p : RawParams)
    (h1 : str_lower p.date_from ≠ "") (h2 : str_lower p.date_to ≠ "")
    (h3 : str_lower p.origin ≠ "") (h4 : str_lower p.destination = "") :
    normalize_params st fuel p =
      some (lowered_state p, some ⟨"destination", blank_msg⟩, []) := by
  simp [normalize_params, h1, h2, h3, h4]

/-- Helper: an unparseable `date_from` fails before `date_to` is parsed,
with the dictionary still holding the lowercased strings. -/
theorem norm_bad_date_from (st : Store) (fuel : Nat) (p : RawParams)
    (h1 : str_lower p.date_from ≠ "") (h2 : str_lower p.date_to ≠ "")
    (h3 : str_lower p.origin ≠ "") (h4 : str_lower p.destination ≠ "")
    (h5 : parseDate (str_lower p.date_from) = none) :
    normalize_params st fuel p =
      some (lowered_state p,
        some ⟨"date_from", bad_date_msg (str_lower p.date_from)⟩, []) := by
  simp [normalize_params, h1, h2, h3, h4, h5]

/-- Helper: an unparseable `date_to` fails with `date_from` already
replaced by its parsed value (the earlier mutation persists). -/
theorem norm_bad_date_to (st : Store) (fuel : Nat) (p : RawParams) (ddf : Date)
    (h1 : str_lower p.date_from ≠ "") (h2 : str_lower p.date_to ≠ "")
    (h3 : str_lower p.origin ≠ "") (h4 : str_lower p.destination ≠ "")
    (h5 : parseDate (str_lower p.date_from) = some ddf)
    (h6 : parseDate (str_lower p.date_to) = none) :
    normalize_params st fuel p =
      some ({ lowered_state p with date_from := PVal.d ddf },
        some ⟨"date_to", bad_date_msg (str_lower p.date_to)⟩, []) := by
  simp [normalize_params, h1, h2, h3, h4, h5, h6]

/-- Helper: an origin matching neither table fails on `origin`, with the
`origin_is_region` key already set to false, exactly one `regions` and one
`ports` lookup performed, and no destination lookups at all. -/
theorem norm_bad_origin (st : Store) (fuel : Nat) (p : RawParams) (ddf ddt : Date)
    (h1 : str_lower p.date_from ≠ "") (h2 : str_lower p.date_to ≠ "")
    (h3 : str_lower p.origin ≠ "") (h4 : str_lower p.destination ≠ "")
    (h5 : parseDate (str_lower p.date_from) = some ddf)
    (h6 : parseDate (str_lower p.date_to) = some ddt)
    (h7 : dateLt ddt ddf = false)
    (h8 : is_region st (str_lower p.origin) = false)
    (h9 : is_port_code st (str_lower p.origin) = false) :
    normalize_params st fuel p =
      some ({ lowered_state p with
                date_from := PVal.d ddf
                date_to := PVal.d ddt
                origin_is_region := some false },
        some ⟨"origin", bad_endpoint_msg (str_lower p.origin)⟩,
        [StoreCall.is_region (str_lower p.origin),
         StoreCall.is_port_code (str_lower p.origin)]) := by
  simp [normalize_params, classify, h1, h2, h3, h4, h5, h6, h7, h8, h9]

/-- Helper: with the origin a region, a destination matching neither table
fails on `destination`, with both classification flags already stored, no
parents attached, and no port lookup for the origin. -/
theorem norm_bad_destination (st : Store) (fuel : Nat) (p : RawParams) (ddf ddt : Date)
    (h1 : str_lower p.date_from ≠ "") (h2 : str_lower p.date_to ≠ "")
    (h3 : str_lower p.origin ≠ "") (h4 : str_lower p.destination ≠ "")
    (h5 : parseDate (str_lower p.date_from) = some ddf)
    (h6 : parseDate (str_lower p.date_to) = some ddt)
    (h7 : dateLt ddt ddf = false)
    (h8 : is_region st (str_lower p.origin) = true)
    (h9 : is_region st (str_lower p.destination) = false)
    (h10 : is_port_code st (str_lower p.destination) = false) :
    normalize_params st fuel p =
      some ({ lowered_state p with
                date_from := PVal.d ddf
                date_to := PVal.d ddt
                origin_is_region := some true
                destination_is_region := some false },
        some ⟨"destination", bad_endpoint_msg (str_lower p.destination)⟩,
        [StoreCall.is_region (str_lower p.origin),
         StoreCall.is_region (str_lower p.destination),
         StoreCall.is_port_code (str_lower p.destination)]) := by
  simp [normalize_params, classify, h1, h2, h3, h4, h5, h6, h7, h8, h9, h10]

/-- Helper: the expansion loop only ever adds `get_region_children` calls
to the trace. -/
theorem expandLoop_trace_kinds (st : Store) :
    ∀ (fuel : Nat) (rs : List String) (n : Nat) (tr : List StoreCall),
      (∀ c ∈ tr, isPortCall c = false) →
      ∀ c ∈ (expandLoop st fuel rs n tr).2.2, isPortCall c = false := by
  intro fuel
  induction fuel with
  | zero => intro rs n tr h c hc; exact h c hc
  | succ fuel ih =>
    intro rs n tr h c hc
    rw [expandLoop] at hc
    by_cases hlt : n < rs.length
    · rw [dif_pos hlt] at hc
      refine ih _ _ _ ?_ c hc
      intro d hd
      rcases List.mem_append.mp hd with h1 | h1
      · exact h d h1
      · simp only [List.mem_singleton] at h1; subst h1; rfl
    · rw [dif_neg hlt] at hc; exact h c hc

/-- Helper: the resolver's trace holds only `get_region_children` calls. -/
theorem get_all_trace_kinds (st : Store) (fuel : Nat) (slug : String) :
    ∀ c ∈ (get_all_regions_within st fuel slug).2, isPortCall c = false := by
  intro c hc
  simp only [get_all_regions_within] at hc
  exact expandLoop_trace_kinds st fuel [slug] 0 [] (by simp) c hc

/-- Helper: once the four fields are non-blank, both dates parse and the
range check passes, any raised `ValidationError` is on `origin` or
`destination` — never on the date fields. -/
theorem norm_late_errors (st : Store) (fuel : Nat) (p : RawParams) (ddf ddt : Date)
    (h1 : str_lower p.date_from ≠ "") (h2 : str_lower p.date_to ≠ "")
    (h3 : str_lower p.origin ≠ "") (h4 : str_lower p.destination ≠ "")
    (h5 : parseDate (str_lower p.date_from) = some ddf)
    (h6 : parseDate (str_lower p.date_to) = some ddt)
    (h7 : dateLt ddt ddf = false) :
    ∀ res, normalize_params st fuel p = some res →
      res.2.1 = none ∨
      (∃ e, res.2.1 = some e ∧ (e.field = "origin" ∨ e.field = "destination")) := by
  intro res hres
  simp only [normalize_params, h5, h6, h7] at hres
  rw [if_neg h1, if_neg h2, if_neg h3, if_neg h4,
    if_neg (by decide : ¬ ((false : Bool) = true))] at hres
  split at hres
  · injection hres with h
    right
    exact ⟨_, congrArg (fun r => r.2.1) h.symm, Or.inl rfl⟩
  · split at hres
    · injection hres with h
      right
      exact ⟨_, congrArg (fun r => r.2.1) h.symm, Or.inr rfl⟩
    · split at hres
      · simp at hres
      · split at hres
        · simp at hres
        · injection hres with h
          left
          exact congrArg (fun r => r.2.1) h.symm

/-- Helper: the region flag stored by classification is exactly the result
of the `regions` lookup. -/
theorem classify_fst (st : Store) (v : String) : (classify st v).1 = is_region st v := by
  simp only [classify]
  split
  · rfl
  · split <;> rfl

/-- C5 (confirmed): `normalize_params` applies the validation rules in
the spec's order and stops at the first failure: blank checks (in field
insertion order) come before any date parsing; `date_from` parsing before
`date_to` parsing; both before the range-order check; the range-order check
before endpoint classification; and origin classification (which can fail)
before any destination lookup.  Each conjunct pins the entire result,
including the store-call trace — empty before classification, and exactly
`[is_region origin, is_port_code origin]` when the origin fails — so no
further checks or lookups happen after the first failure. -/
theorem c5_validation_order (st : Store) (fuel : Nat) (p : RawParams) :
    (str_lower p.date_from = "" →
      normalize_params st fuel p =
        some (lowered_state p, some ⟨"date_from", blank_msg⟩, [])) ∧
    (str_lower p.date_from ≠ "" → str_lower p.date_to = "" →
      normalize_params st fuel p =
        some (lowered_state p, some ⟨"date_to", blank_msg⟩, [])) ∧
    (str_lower p.date_from ≠ "" → str_lower p.date_to ≠ "" → str_lower p.origin = "" →
      normalize_params st fuel p =
        some (lowered_state p, some ⟨"origin", blank_msg⟩, [])) ∧
    (str_lower p.date_from ≠ "" → str_lower p.date_to ≠ "" → str_lower p.origin ≠ "" →
      str_lower p.destination = "" →
      normalize_params st fuel p =
        some (lowered_state p, some ⟨"destination", blank_msg⟩, [])) ∧
    (str_lower p.date_from ≠ "" → str_lower p.date_to ≠ "" → str_lower p.origin ≠ "" →
      str_lower p.destination ≠ "" → parseDate (str_lower p.date_from) = none →
      normalize_params st fuel p =
        some (lowered_state p,
          some ⟨"date_from", bad_date_msg (str_lower p.date_from)⟩, [])) ∧
    (∀ ddf, str_lower p.date_from ≠ "" → str_lower p.date_to ≠ "" →
      str_lower p.origin ≠ "" → str_lower p.destination ≠ "" →
      parseDate (str_lower p.date_from) = some ddf →
      parseDate (str_lower p.date_to) = none →
      normalize_params st fuel p =
        some ({ lowered_state p with date_from := PVal.d ddf },
          some ⟨"date_to", bad_date_msg (str_lower p.date_to)⟩, [])) ∧
    (∀ ddf ddt, str_lower p.date_from ≠ "" → str_lower p.date_to ≠ "" →
      str_lower p.origin ≠ "" → str_lower p.destination ≠ "" →
      parseDate (str_lower p.date_from) = some ddf →
      parseDate (str_lower p.date_to) = some ddt → dateLt ddt ddf = true →
      normalize_params st fuel p =
        some ({ lowered_state p with date_from := PVal.d ddf, date_to := PVal.d ddt },
          some ⟨"date_to", order_msg⟩, [])) ∧
    (∀ ddf ddt, str_lower p.date_from ≠ "" → str_lower p.date_to ≠ "" →
      str_lower p.origin ≠ "" → str_lower p.destination ≠ "" →
      parseDate (str_lower p.date_from) = some ddf →
      parseDate (str_lower p.date_to) = some ddt → dateLt ddt ddf = false →
      is_region st (str_lower p.origin) = false →
      is_port_code st (str_lower p.origin) = false →
      normalize_params st fuel p =
        some ({ lowered_state p with
                  date_from := PVal.d ddf
                  date_to := PVal.d ddt
                  origin_is_region := some false },
          some ⟨"origin", bad_endpoint_msg (str_lower p.origin)⟩,
          [StoreCall.is_region (str_lower p.origin),
           StoreCall.is_port_code (str_lower p.origin)])) :=
  ⟨fun h1 => norm_blank_date_from st fuel p h1,
   fun h1 h2 => norm_blank_date_to st fuel p h1 h2,
   fun h1 h2 h3 => norm_blank_origin st fuel p h1 h2 h3,
   fun h1 h2 h3 h4 => norm_blank_destination st fuel p h1 h2 h3 h4,
   fun h1 h2 h3 h4 h5 => norm_bad_date_from st fuel p h1 h2 h3 h4 h5,
   fun ddf h1 h2 h3 h4 h5 h6 => norm_bad_date_to st fuel p ddf h1 h2 h3 h4 h5 h6,
   fun ddf ddt h1 h2 h3 h4 h5 h6 h7 => norm_order_fail st fuel p ddf ddt h1 h2 h3 h4 h5 h6 h7,
   fun ddf ddt h1 h2 h3 h4 h5 h6 h7 h8 h9 =>
     norm_bad_origin st fuel p ddf ddt h1 h2 h3 h4 h5 h6 h7 h8 h9⟩

/-- Witness for C5: with valid dates and an origin `"AAA"` unknown to the
(empty) store, normalization fails on `origin` after lowercasing all
fields, parsing both dates, setting `origin_is_region := false`, and
performing exactly the two origin lookups — nothing about the destination
is checked. -/
theorem c5_validation_order_witness :
    normalize_params emptyStore 0 p_unknown_origin =
      some ({ lowered_state p_unknown_origin with
                date_from := PVal.d ⟨2016, 1, 1⟩
                date_to := PVal.d ⟨2016, 1, 2⟩
                origin_is_region := some false },
        some ⟨"origin", bad_endpoint_msg (str_lower p_unknown_origin.origin)⟩,
        [StoreCall.is_region (str_lower p_unknown_origin.origin),
         StoreCall.is_port_code (str_lower p_unknown_origin.origin)]) :=
  (c5_validation_order emptyStore 0 p_unknown_origin).2.2.2.2.2.2.2
    ⟨2016, 1, 1⟩ ⟨2016, 1, 2⟩ (by decide) (by decide) (by decide) (by decide)
    (by decide) (by decide) (by decide) (by decide) (by decide)

/-- C7 (confirmed): with non-blank fields and well-formed dates,
`normalize_params` raises a `ValidationError` on field `date_to` exactly
when `date_to` is strictly earlier than `date_from`; when the range is not
inverted any error is on `origin` or `destination`, never `date_to`; and
the comparison is irreflexive, so `date_to = date_from` passes the range
check (the range is inclusive). -/
theorem c7_range_check_strict (st : Store) (fuel : Nat) (p : RawParams) (ddf ddt : Date)
    (h1 : str_lower p.date_from ≠ "") (h2 : str_lower p.date_to ≠ "")
    (h3 : str_lower p.origin ≠ "") (h4 : str_lower p.destination ≠ "")
    (h5 : parseDate (str_lower p.date_from) = some ddf)
    (h6 : parseDate (str_lower p.date_to) = some ddt) :
    (dateLt ddt ddf = true →
      normalize_params st fuel p =
        some ({ lowered_state p with date_from := PVal.d ddf, date_to := PVal.d ddt },
          some ⟨"date_to", order_msg⟩, [])) ∧
    (dateLt ddt ddf = false →
      ∀ res, normalize_params st fuel p = some res →
        ∀ m, res.2.1 ≠ some ⟨"date_to", m⟩) ∧
    dateLt ddt ddt = false := by
  refine ⟨fun h7 => norm_order_fail st fuel p ddf ddt h1 h2 h3 h4 h5 h6 h7,
    fun h7 res hres m hcon => ?_, by simp [dateLt]⟩
  rcases norm_late_errors st fuel p ddf ddt h1 h2 h3 h4 h5 h6 h7 res hres with h | ⟨e, he, hf⟩
  · rw [h] at hcon
    exact Option.noConfusion hcon
  · rw [he] at hcon
    injection hcon with hcon
    subst hcon
    simp at hf

/-- Witness for C7: `date_from = 2016-01-02`, `date_to = 2016-01-01` is an
inverted range, and normalization fails on `date_to` with both parsed dates
already stored. -/
theorem c7_range_check_strict_witness :
    dateLt ⟨2016, 1, 1⟩ ⟨2016, 1, 2⟩ = true ∧
    normalize_params emptyStore 0 p_inverted =
      some ({ lowered_state p_inverted with
                date_from := PVal.d ⟨2016, 1, 2⟩
                date_to := PVal.d ⟨2016, 1, 1⟩ },
        some ⟨"date_to", order_msg⟩, []) :=
  ⟨by decide,
   (c7_range_check_strict emptyStore 0 p_inverted ⟨2016, 1, 2⟩ ⟨2016, 1, 1⟩
     (by decide) (by decide) (by decide) (by decide) (by decide) (by decide)).1 (by decide)⟩

/-- C10 (confirmed): `normalize_params` mutates the parameter mapping
in place (embedded as the returned final state) and the mutations
accumulate: on success every field is lowercased, both dates are replaced
by parsed values, both classification flags are added, and a parents list
is attached exactly for the endpoints classified as regions; when
validation fails partway, the mutations made before the failing rule
persist — an inverted range leaves the lowercased fields and both parsed
dates in the mapping, and a failing destination additionally leaves both
classification flags (no atomicity on error). -/
theorem c10_mutation_persists (st : Store) (fuel : Nat) (p : RawParams) (ddf ddt : Date)
    (h1 : str_lower p.date_from ≠ "") (h2 : str_lower p.date_to ≠ "")
    (h3 : str_lower p.origin ≠ "") (h4 : str_lower p.destination ≠ "")
    (h5 : parseDate (str_lower p.date_from) = some ddf)
    (h6 : parseDate (str_lower p.date_to) = some ddt) :
    (∀ res, normalize_params st fuel p = some res → res.2.1 = none →
      res.1.date_from = PVal.d ddf ∧ res.1.date_to = PVal.d ddt ∧
      res.1.origin = PVal.s (str_lower p.origin) ∧
      res.1.destination = PVal.s (str_lower p.destination) ∧
      res.1.origin_is_region = some (is_region st (str_lower p.origin)) ∧
      res.1.destination_is_region = some (is_region st (str_lower p.destination)) ∧
      (is_region st (str_lower p.origin) = true → (res.1.origin_parents).isSome = true) ∧
      (is_region st (str_lower p.origin) = false → res.1.origin_parents = none) ∧
      (is_region st (str_lower p.destination) = true →
        (res.1.destination_parents).isSome = true) ∧
      (is_region st (str_lower p.destination) = false →
        res.1.destination_parents = none)) ∧
    (dateLt ddt ddf = true →
      normalize_params st fuel p =
        some ({ lowered_state p with date_from := PVal.d ddf, date_to := PVal.d ddt },
          some ⟨"date_to", order_msg⟩, [])) ∧
    (dateLt ddt ddf = false → is_region st (str_lower p.origin) = true →
      is_region st (str_lower p.destination) = false →
      is_port_code st (str_lower p.destination) = false →
      normalize_params st fuel p =
        some ({ lowered_state p with
                  date_from := PVal.d ddf
                  date_to := PVal.d ddt
                  origin_is_region := some true
                  destination_is_region := some false },
          some ⟨"destination", bad_endpoint_msg (str_lower p.destination)⟩,
          [StoreCall.is_region (str_lower p.origin),
           StoreCall.is_region (str_lower p.destination),
           StoreCall.is_port_code (str_lower p.destination)])) := by
  refine ⟨?_, fun h7 => norm_order_fail st fuel p ddf ddt h1 h2 h3 h4 h5 h6 h7,
    fun h7 h8 h9 h10 =>
      norm_bad_destination st fuel p ddf ddt h1 h2 h3 h4 h5 h6 h7 h8 h9 h10⟩
  intro res hres hok
  cases h7 : dateLt ddt ddf with
  | true =>
    rw [norm_order_fail st fuel p ddf ddt h1 h2 h3 h4 h5 h6 h7] at hres
    injection hres with h
    rw [← h] at hok
    simp at hok
  | false =>
    simp only [normalize_params, h5, h6, h7] at hres
    rw [if_neg h1, if_neg h2, if_neg h3, if_neg h4,
      if_neg (by decide : ¬ ((false : Bool) = true))] at hres
    cases hro : is_region st (str_lower p.origin) with
    | false =>
      cases hpo : is_port_code st (str_lower p.origin) with
      | false =>
        simp [classify, hro, hpo] at hres
        subst hres
        simp at hok
      | true =>
        cases hrd : is_region st (str_lower p.destination) with
        | false =>
          cases hpd : is_port_code st (str_lower p.destination) with
          | false =>
            simp [classify, hro, hpo, hrd, hpd] at hres
            subst hres
            simp at hok
          | true =>
            simp [classify, hro, hpo, hrd, hpd, attach_origin_parents,
              attach_destination_parents] at hres
            subst hres
            simp [hro, hrd, lowered_state]
        | true =>
          rcases hG : get_all_regions_within st fuel (str_lower p.destination) with ⟨od, trD2⟩
          cases od with
          | none =>
            simp [classify, hro, hpo, hrd, attach_origin_parents,
              attach_destination_parents, hG] at hres
          | some ds =>
            simp [classify, hro, hpo, hrd, attach_origin_parents,
              attach_destination_parents, hG] at hres
            subst hres
            simp [hro, hrd, lowered_state]
    | true =>
      cases hrd : is_region st (str_lower p.destination) with
      | false =>
        cases hpd : is_port_code st (str_lower p.destination) with
        | false =>
          simp [classify, hro, hrd, hpd] at hres
          subst hres
          simp at hok
        | true =>
          rcases hG : get_all_regions_within st fuel (str_lower p.origin) with ⟨oo, trO2⟩
          cases oo with
          | none =>
            simp [classify, hro, hrd, hpd, attach_origin_parents,
              attach_destination_parents, hG] at hres
          | some os =>
            simp [classify, hro, hrd, hpd, attach_origin_parents,
              attach_destination_parents, hG] at hres
            subst hres
            simp [hro, hrd, lowered_state]
      | true =>
        rcases hG : get_all_regions_within st fuel (str_lower p.origin) with ⟨oo, trO2⟩
        cases oo with
        | none =>
          simp [classify, hro, hrd, attach_origin_parents,
            attach_destination_parents, hG] at hres
        | some os =>
          rcases hG2 : get_all_regions_within st fuel (str_lower p.destination) with ⟨od, trD2⟩
          cases od with
          | none =>
            simp [classify, hro, hrd, attach_origin_parents,
              attach_destination_parents, hG, hG2] at hres
          | some ds =>
            simp [classify, hro, hrd, attach_origin_parents,
              attach_destination_parents, hG, hG2] at hres
            subst hres
            simp [hro, hrd, lowered_state]

/-- Witness for C10: origin `r1` is a region of `w6store` but `zzz`
matches neither table; normalization fails on `destination` with the
lowercased fields, both parsed dates and both classification flags already
persisted in the mapping, and no parents keys added. -/
theorem c10_mutation_persists_witness :
    normalize_params w6store 2 p_bad_destination =
      some ({ lowered_state p_bad_destination with
                date_from := PVal.d ⟨2016, 1, 1⟩
                date_to := PVal.d ⟨2016, 1, 2⟩
                origin_is_region := some true
                destination_is_region := some false },
        some ⟨"destination", bad_endpoint_msg (str_lower p_bad_destination.destination)⟩,
        [StoreCall.is_region (str_lower p_bad_destination.origin),
         StoreCall.is_region (str_lower p_bad_destination.destination),
         StoreCall.is_port_code (str_lower p_bad_destination.destination)]) :=
  (c10_mutation_persists w6store 2 p_bad_destination ⟨2016, 1, 1⟩ ⟨2016, 1, 2⟩
    (by decide) (by decide) (by decide) (by decide) (by decide) (by decide)).2.2
    (by decide) (by decide) (by decide) (by decide)

/-- C6 (confirmed): endpoint classification checks the region store
first and the terminal store only when no region matched: when an
identifier is a region (even if it is also a port code), it is classified
as a region and the trace contains no `ports` lookup at all for the
region-classified endpoints; an identifier matching neither store raises a
`ValidationError` on its field whose message states the value is not a
valid region slug or port code, origin before destination. -/
theorem c6_region_precedence (st : Store) (fuel : Nat) (p : RawParams) (ddf ddt : Date)
    (h1 : str_lower p.date_from ≠ "") (h2 : str_lower p.date_to ≠ "")
    (h3 : str_lower p.origin ≠ "") (h4 : str_lower p.destination ≠ "")
    (h5 : parseDate (str_lower p.date_from) = some ddf)
    (h6 : parseDate (str_lower p.date_to) = some ddt)
    (h7 : dateLt ddt ddf = false) :
    (is_region st (str_lower p.origin) = true →
      is_region st (str_lower p.destination) = true →
      ∀ res, normalize_params st fuel p = some res →
        res.1.origin_is_region = some true ∧
        res.1.destination_is_region = some true ∧
        res.2.2.filter isPortCall = []) ∧
    (is_region st (str_lower p.origin) = false →
      is_port_code st (str_lower p.origin) = false →
      normalize_params st fuel p =
        some ({ lowered_state p with
                  date_from := PVal.d ddf
                  date_to := PVal.d ddt
                  origin_is_region := some false },
          some ⟨"origin", bad_endpoint_msg (str_lower p.origin)⟩,
          [StoreCall.is_region (str_lower p.origin),
           StoreCall.is_port_code (str_lower p.origin)])) ∧
    (is_region st (str_lower p.origin) = true →
      is_region st (str_lower p.destination) = false →
      is_port_code st (str_lower p.destination) = false →
      normalize_params st fuel p =
        some ({ lowered_state p with
                  date_from := PVal.d ddf
                  date_to := PVal.d ddt
                  origin_is_region := some true
                  destination_is_region := some false },
          some ⟨"destination", bad_endpoint_msg (str_lower p.destination)⟩,
          [StoreCall.is_region (str_lower p.origin),
           StoreCall.is_region (str_lower p.destination),
           StoreCall.is_port_code (str_lower p.destination)])) := by
  refine ⟨?_, fun h8 h9 => norm_bad_origin st fuel p ddf ddt h1 h2 h3 h4 h5 h6 h7 h8 h9,
    fun h8 h9 h10 =>
      norm_bad_destination st fuel p ddf ddt h1 h2 h3 h4 h5 h6 h7 h8 h9 h10⟩
  intro hro hrd res hres
  simp only [normalize_params, h5, h6, h7] at hres
  rw [if_neg h1, if_neg h2, if_neg h3, if_neg h4,
    if_neg (by decide : ¬ ((false : Bool) = true))] at hres
  rcases hG : get_all_regions_within st fuel (str_lower p.origin) with ⟨oo, trO2⟩
  cases oo with
  | none =>
    simp [classify, hro, hrd, attach_origin_parents,
      attach_destination_parents, hG] at hres
  | some os =>
    rcases hG2 : get_all_regions_within st fuel (str_lower p.destination) with ⟨od, trD2⟩
    cases od with
    | none =>
      simp [classify, hro, hrd, attach_origin_parents,
        attach_destination_parents, hG, hG2] at hres
    | some ds =>
      simp [classify, hro, hrd, attach_origin_parents,
        attach_destination_parents, hG, hG2] at hres
      subst hres
      refine ⟨rfl, rfl, ?_⟩
      have hOk : ∀ c ∈ trO2, isPortCall c = false := by
        have h := get_all_trace_kinds st fuel (str_lower p.origin)
        rw [hG] at h
        exact h
      have hDk : ∀ c ∈ trD2, isPortCall c = false := by
        have h := get_all_trace_kinds st fuel (str_lower p.destination)
        rw [hG2] at h
        exact h
      refine List.filter_eq_nil_iff.mpr ?_
      intro a ha
      simp only [List.append_assoc, List.mem_append, List.mem_cons,
        List.not_mem_nil, or_false, List.mem_singleton] at ha
      rcases ha with ha | ha | ha | ha
      · subst ha; exact Bool.false_ne_true
      · subst ha; exact Bool.false_ne_true
      · simp [hOk a ha]
      · simp [hDk a ha]

/-- Witness for C6: in `w6store` the identifiers `r1` and `r2` are present
in both the regions and the ports tables; both endpoints are classified as
regions and the trace contains the two region lookups and the expansion
calls but no ports lookup. -/
theorem c6_region_precedence_witness :
    normalize_params w6store 2 p_both_regions = some (w6state, none, w6trace) ∧
    w6state.origin_is_region = some true ∧
    w6state.destination_is_region = some true ∧
    w6trace.filter isPortCall = [] := by
  have happ := (c6_region_precedence w6store 2 p_both_regions ⟨2016, 1, 1⟩ ⟨2016, 1, 2⟩
    (by decide) (by decide) (by decide) (by decide) (by decide) (by decide) (by decide)).1
    (by decide) (by decide) (w6state, none, w6trace) (by decide)
  exact ⟨by decide, happ.1, happ.2.1, happ.2.2⟩

/-- Helper: on the cyclic store every loop state whose entries are all
`"a"` or `"b"` and whose cursor is strictly inside the list steps to
another such state — the cursor never catches up, whatever the fuel. -/
theorem cyc_step_invariant :
    ∀ (fuel : Nat) (rs : List String) (n : Nat) (tr : List StoreCall),
      n < rs.length → (∀ x ∈ rs, x = "a" ∨ x = "b") →
      (expandLoop cycStore fuel rs n tr).2.1 < (expandLoop cycStore fuel rs n tr).1.length := by
  intro fuel
  induction fuel with
  | zero => intro rs n tr h _; simpa [expandLoop] using h
  | succ fuel ih =>
    intro rs n tr h hmem
    rw [expandLoop, dif_pos h]
    have hx := hmem (rs.get ⟨n, h⟩) (List.get_mem rs n h)
    apply ih
    · have hlen : (get_region_children cycStore (rs.get ⟨n, h⟩)).length = 1 := by
        rcases hx with hx | hx <;> rw [hx] <;> rfl
      simp only [List.length_append, hlen]
      omega
    · intro x hxm
      rcases List.mem_append.mp hxm with h1 | h1
      · exact hmem x h1
      · rcases hx with hg | hg <;> rw [hg] at h1 <;>
          simp only [show get_region_children cycStore "a" = ["b"] from rfl,
            show get_region_children cycStore "b" = ["a"] from rfl,
            List.mem_singleton] at h1 <;> simp [h1]

/-- C3 (amended): the resolver does not track visited identifiers — it
appends every fetched child whether or not already present — so on the
cyclic parent relation `a → b → a` the cursor never reaches the end of the
list for any fuel bound (the `while` loop does not terminate), and the
traversal list outgrows the number of distinct regions (length 5 after four
iterations over 2 regions). -/
theorem c3_unbounded_on_cycles :
    (∀ fuel : Nat, (get_all_regions_within cycStore fuel "a").1 = none) ∧
    (expandLoop cycStore 4 ["a"] 0 []).1.length = 5 := by
  constructor
  · intro fuel
    have h := cyc_step_invariant fuel ["a"] 0 [] (by decide)
      (by intro x hx; simp only [List.mem_singleton] at hx; exact Or.inl hx)
    simp only [get_all_regions_within]
    rw [if_pos h]
  · decide

/-- Helper: the loop only extends the `regions` list, so the initial list
is a prefix of the final one. -/
theorem expandLoop_grows (st : Store) :
    ∀ (fuel : Nat) (rs : List String) (n : Nat) (tr : List StoreCall),
      rs <+: (expandLoop st fuel rs n tr).1 := by
  intro fuel
  induction fuel with
  | zero => intro rs n tr; exact List.prefix_rfl
  | succ fuel ih =>
    intro rs n tr
    rw [expandLoop]
    by_cases h : n < rs.length
    · rw [dif_pos h]
      exact (List.prefix_append rs _).trans (ih _ _ _)
    · rw [dif_neg h]

/-- Helper: when the cursor has reached the end, the loop is finished. -/
theorem expandLoop_stall (st : Store) (fuel : Nat) (rs : List String) (n : Nat)
    (tr : List StoreCall) (h : ¬ n < rs.length) :
    expandLoop st fuel rs n tr = (rs, n, tr) := by
  cases fuel with
  | zero => rfl
  | succ fuel => rw [expandLoop, dif_neg h]

/-- Helper: if every already-expanded entry has its children in the list,
and the loop finishes (final cursor at the end), the final list is closed
under `get_region_children`. -/
theorem expandLoop_closure (st : Store) :
    ∀ (fuel : Nat) (rs : List String) (n : Nat) (tr : List StoreCall),
      n ≤ rs.length →
      (∀ i (hi : i < rs.length), i < n →
        ∀ c ∈ get_region_children st (rs.get ⟨i, hi⟩), c ∈ rs) →
      ¬ (expandLoop st fuel rs n tr).2.1 < (expandLoop st fuel rs n tr).1.length →
      ∀ x ∈ (expandLoop st fuel rs n tr).1, ∀ c ∈ get_region_children st x,
        c ∈ (expandLoop st fuel rs n tr).1 := by
  intro fuel
  induction fuel with
  | zero =>
    intro rs n tr hn hinv hdone x hx c hc
    have hd : ¬ n < rs.length := hdone
    have hx' : x ∈ rs := hx
    obtain ⟨⟨i, hi⟩, hieq⟩ := List.mem_iff_get.mp hx'
    subst hieq
    show c ∈ rs
    exact hinv i hi (by omega) c hc
  | succ fuel ih =>
    intro rs n tr hn hinv hdone x hx c hc
    by_cases h : n < rs.length
    · rw [expandLoop, dif_pos h] at hdone hx ⊢
      refine ih _ _ _ ?_ ?_ hdone x hx c hc
      · simp only [List.length_append]
        omega
      · intro i hi hilt c' hc'
        have hir : i < rs.length := by omega
        rw [List.get_append i hir] at hc'
        rcases Nat.lt_or_ge i n with hin | hin
        · exact List.mem_append_left _ (hinv i hir hin c' hc')
        · have : i = n := by omega
          subst this
          exact List.mem_append_right _ hc'
    · have hx' : x ∈ rs := by
        rw [expandLoop, dif_neg h] at hx
        exact hx
      obtain ⟨⟨i, hi⟩, hieq⟩ := List.mem_iff_get.mp hx'
      subst hieq
      rw [expandLoop, dif_neg h]
      show c ∈ rs
      exact hinv i hi (by omega) c hc

/-- C4 (confirmed): whenever `get_all_regions_within` terminates, its
result starts with the queried region itself and is closed under the child
relation, hence contains every transitive descendant (any chain
R → C1 → C2 ends inside the result); and for a region with no children —
in particular an unknown identifier — the result is the singleton `[R]`. -/
theorem c4_expand_contains_descendants (st : Store) (fuel : Nat) (R : String)
    (l : List String) (h : (get_all_regions_within st fuel R).1 = some l) :
    l.head? = some R ∧ (∀ x, ReachesFrom st R x → x ∈ l) ∧
    (get_region_children st R = [] → l = [R]) := by
  simp only [get_all_regions_within] at h
  by_cases hdone : (expandLoop st fuel [R] 0 []).2.1 < (expandLoop st fuel [R] 0 []).1.length
  · rw [if_pos hdone] at h
    exact Option.noConfusion h
  · rw [if_neg hdone] at h
    injection h with h
    subst h
    have hpre := expandLoop_grows st fuel [R] 0 []
    obtain ⟨t, ht⟩ := hpre
    have hclosed := expandLoop_closure st fuel [R] 0 []
      (by simp) (by intro i hi hineg; omega) hdone
    have hhead : (expandLoop st fuel [R] 0 []).1.head? = some R := by
      rw [← ht]
      rfl
    refine ⟨hhead, ?_, ?_⟩
    · intro x hreach
      induction hreach with
      | refl =>
        have hmem : R ∈ [R] ++ t := by simp
        rw [ht] at hmem
        exact hmem
      | step hr hc ih2 => exact hclosed _ ih2 _ hc
    · intro hchild
      cases fuel with
      | zero =>
        exfalso
        exact hdone (by simp [expandLoop])
      | succ fuel =>
        rw [expandLoop, dif_pos (by simp : 0 < ([R] : List String).length)]
        rw [show ([R] : List String).get ⟨0, by simp⟩ = R from rfl, hchild,
          List.append_nil]
        rw [expandLoop_stall st fuel [R] 1 _ (by simp)]

/-- Witness for C4: expanding an identifier unknown to the empty store
terminates immediately with the singleton list headed by the identifier. -/
theorem c4_expand_contains_descendants_witness :
    (get_all_regions_within emptyStore 1 "x").1 = some ["x"] ∧
    (["x"] : List String).head? = some "x" :=
  ⟨by decide,
   (c4_expand_contains_descendants emptyStore 1 "x" ["x"] (by decide)).1⟩

/-- Helper: a flat-map whose body is empty away from `d` vanishes when `d`
does not occur. -/
theorem flatMap_if_eq_nil {β : Type} (l : List Int) (d : Int) (g : List β)
    (h : l.count d = 0) :
    (l.flatMap fun a => if a = d then g else []) = [] := by
  induction l with
  | nil => rfl
  | cons a t ih =>
    have ha : a ≠ d := by
      intro e
      subst e
      rw [List.count_cons_self] at h
      omega
    rw [List.flatMap_cons, if_neg ha, List.nil_append]
    apply ih
    rw [List.count_cons_of_ne (Ne.symm ha)] at h
    exact h

/-- Helper: a flat-map whose body is empty away from `d` collapses to the
`d`-contribution when `d` occurs exactly once. -/
theorem flatMap_if_count_one {β : Type} (l : List Int) (d : Int) (g : List β)
    (h : l.count d = 1) :
    (l.flatMap fun a => if a = d then g else []) = g := by
  induction l with
  | nil => simp at h
  | cons a t ih =>
    by_cases ha : a = d
    · subst ha
      rw [List.count_cons_self] at h
      have ht : t.count a = 0 := by omega
      rw [List.flatMap_cons, if_pos rfl, flatMap_if_eq_nil t a g ht, List.append_nil]
    · rw [List.count_cons_of_ne (Ne.symm ha)] at h
      rw [List.flatMap_cons, if_neg ha, List.nil_append]
      exact ih h

/-- Helper: every join partner of the calendar row of day `a` carries the
key `a`. -/
theorem day_join_rows_fst (st : Store) (qp : QueryParams) (a : Int) :
    ∀ z ∈ day_join_rows st qp a, z.1 = a := by
  intro z hz
  simp only [day_join_rows] at hz
  split at hz
  · simp only [List.mem_singleton] at hz
    subst hz
    rfl
  · obtain ⟨r, _, rfl⟩ := List.mem_map.mp hz
    rfl

/-- Helper: a calendar row always produces at least one joined row (the
point of the outer join). -/
theorem day_join_rows_ne_nil (st : Store) (qp : QueryParams) (a : Int) :
    day_join_rows st qp a ≠ [] := by
  simp only [day_join_rows]
  split
  · simp
  · rename_i hne
    intro hc
    rw [List.map_eq_nil_iff] at hc
    rw [hc] at hne
    simp at hne

/-- Helper: filtering the `d`-contribution by key `d` keeps everything. -/
theorem day_join_rows_filter_self (st : Store) (qp : QueryParams) (d : Int) :
    (day_join_rows st qp d).filter (fun x => decide (x.1 = d)) = day_join_rows st qp d :=
  List.filter_eq_self.mpr fun a ha => by
    rw [day_join_rows_fst st qp d a ha]
    simp

/-- Helper: filtering another day's contribution by key `d` drops
everything. -/
theorem day_join_rows_filter_ne (st : Store) (qp : QueryParams) {a d : Int} (hne : a ≠ d) :
    (day_join_rows st qp a).filter (fun x => decide (x.1 = d)) = [] :=
  List.filter_eq_nil_iff.mpr fun z hz => by
    simp [day_join_rows_fst st qp a z hz, hne]

/-- Helper: when day `d` occurs exactly once among the in-range calendar
rows, the rows of its group are exactly the `d`-contribution. -/
theorem joined_rows_filter_of_count_one (st : Store) (qp : QueryParams) (d : Int)
    (h : (filtered_dates st qp).count d = 1) :
    (joined_rows st qp).filter (fun x => decide (x.1 = d)) = day_join_rows st qp d := by
  rw [joined_rows, List.filter_flatMap]
  have hfun : (fun a => (day_join_rows st qp a).filter (fun x => decide (x.1 = d))) =
      (fun a => if a = d then day_join_rows st qp d else []) := by
    funext a
    by_cases ha : a = d
    · subst ha
      rw [if_pos rfl, day_join_rows_filter_self]
    · rw [if_neg ha, day_join_rows_filter_ne st qp ha]
  rw [hfun]
  exact flatMap_if_count_one _ d _ h

/-- Helper: when day `d` occurs exactly once among the in-range calendar
rows, its `average_price` is computed from exactly the matching subquery
rows — null below three of them, the cast average otherwise. -/
theorem day_agg_eq_of_count_one (st : Store) (qp : QueryParams) (d : Int)
    (h : (filtered_dates st qp).count d = 1) :
    day_agg st qp d =
      (let ms := (pric_rows st qp).filter fun r => decide (r.p.day = d)
       if ms.length < 3 then none
       else some (pg_avg_int ((ms.map fun r => r.p.price).sum) (ms.length : Int))) := by
  simp only [day_agg]
  rw [joined_rows_filter_of_count_one st qp d h]
  simp only [day_join_rows]
  by_cases he : ((pric_rows st qp).filter fun r => decide (r.p.day = d)).isEmpty = true
  · rw [if_pos he]
    have hms : ((pric_rows st qp).filter fun r => decide (r.p.day = d)) = [] :=
      List.isEmpty_iff.mp he
    simp [hms]
  · rw [if_neg he]
    simp only [List.filterMap_map]
    rw [show ((Prod.snd ∘ fun r : SubRow => ((d, some r) : Int × Option SubRow))) =
      (fun r : SubRow => some r) from rfl]
    rw [show (fun r : SubRow => some r) = some from rfl, List.filterMap_some]

/-- Helper: the group keys of the executed query are exactly the in-range
calendar rows (as a set). -/
theorem mem_group_days_iff (st : Store) (qp : QueryParams) (x : Int) :
    x ∈ group_days st qp ↔ x ∈ filtered_dates st qp := by
  simp only [group_days, List.mem_dedup]
  rw [(List.perm_insertionSort _ _).mem_iff]
  constructor
  · intro hx
    obtain ⟨z, hz, hz1⟩ := List.mem_map.mp hx
    obtain ⟨a2, ha2, hzmem⟩ := List.mem_flatMap.mp hz
    rw [← hz1, day_join_rows_fst st qp a2 z hzmem]
    exact ha2
  · intro hx
    obtain ⟨z, hz⟩ := List.exists_mem_of_ne_nil _ (day_join_rows_ne_nil st qp x)
    exact List.mem_map.mpr ⟨z, List.mem_flatMap.mpr ⟨x, hx, hz⟩,
      day_join_rows_fst st qp x z hz⟩

/-- Helper: `pg_avg_int s n` is the cast-to-integer (round half away from
zero) of the exact rational average `s / n`. -/
theorem pg_avg_int_eq_pgRound (s : Int) (n : Nat) (hn : 0 < n) :
    pg_avg_int s (n : Int) = pgRound ((s : ℚ) / (n : ℚ)) := by
  have hnq : (0 : ℚ) < (n : ℚ) := by exact_mod_cast hn
  have hne : (n : ℚ) ≠ 0 := hnq.ne'
  by_cases hs : 0 ≤ s
  · have hq : 0 ≤ (s : ℚ) / (n : ℚ) := div_nonneg (by exact_mod_cast hs) hnq.le
    rw [pg_avg_int, if_pos hs, pgRound, if_pos hq]
    have heq : (s : ℚ) / (n : ℚ) + 1 / 2 =
        (((2 * s + (n : Int)) : Int) : ℚ) / (((2 * n : Nat) : ℕ) : ℚ) := by
      push_cast
      field_simp
      try ring
    rw [heq, Rat.floor_intCast_div_natCast]
    push_cast
    ring_nf
  · have hq : ¬ 0 ≤ (s : ℚ) / (n : ℚ) := by
      rw [not_le]
      exact div_neg_of_neg_of_pos (by exact_mod_cast (Int.not_le.mp hs)) hnq
    rw [pg_avg_int, if_neg hs, pgRound, if_neg hq]
    have heq : 1 / 2 - (s : ℚ) / (n : ℚ) =
        ((((n : Int) - 2 * s) : Int) : ℚ) / (((2 * n : Nat) : ℕ) : ℚ) := by
      push_cast
      field_simp
      try ring
    rw [heq, Rat.floor_intCast_div_natCast]
    push_cast
    ring_nf

/-- C1 (amended): for a day listed exactly once in the in-range
calendar rows, the query reports `average_price` as null when strictly
fewer than 3 subquery rows match that day, and otherwise as the exact
arithmetic mean of the matching rows' prices rounded to the nearest
integer, ties away from zero (PostgreSQL's `CAST(AVG(..) AS int)`) — not
truncated. -/
theorem c1_min_sample_and_rounded_mean (st : Store) (qp : QueryParams) (d : Int)
    (h : (filtered_dates st qp).count d = 1) :
    (to_char_yyyymmdd d,
      (let ms := (pric_rows st qp).filter fun r => decide (r.p.day = d)
       if ms.length < 3 then none
       else some (pgRound (((ms.map fun r => ((r.p.price : Int) : ℚ)).sum) /
         ((ms.length : Nat) : ℚ))))) ∈ runRatesQuery st qp := by
  have hmem : d ∈ group_days st qp := (mem_group_days_iff st qp d).mpr
    (List.count_pos_iff.mp (by omega))
  have hval : day_agg st qp d =
      (let ms := (pric_rows st qp).filter fun r => decide (r.p.day = d)
       if ms.length < 3 then none
       else some (pgRound (((ms.map fun r => ((r.p.price : Int) : ℚ)).sum) /
         ((ms.length : Nat) : ℚ)))) := by
    rw [day_agg_eq_of_count_one st qp d h]
    by_cases hlen : ((pric_rows st qp).filter fun r => decide (r.p.day = d)).length < 3
    · simp only [if_pos hlen]
    · simp only [if_neg hlen]
      rw [pg_avg_int_eq_pgRound _ _ (by omega)]
      rw [show ((((pric_rows st qp).filter fun r => decide (r.p.day = d)).map
        fun r => ((r.p.price : Int) : ℚ)) =
        ((((pric_rows st qp).filter fun r => decide (r.p.day = d)).map
          fun r => r.p.price).map fun z => ((z : Int) : ℚ))) from by
          rw [List.map_map]; rfl]
      rw [← Int.cast_list_sum]
  exact List.mem_map.mpr ⟨d, hmem, by rw [hval]⟩

/-- Witness for C1 (amended): on the store with prices 1, 2, 2 the day is
listed once, three rows match, and the reported average is the rounded
mean. -/
theorem c1_min_sample_and_rounded_mean_witness :
    (filtered_dates c1store c1qp).count d2016 = 1 ∧
    (to_char_yyyymmdd d2016,
      (let ms := (pric_rows c1store c1qp).filter fun r => decide (r.p.day = d2016)
       if ms.length < 3 then none
       else some (pgRound (((ms.map fun r => ((r.p.price : Int) : ℚ)).sum) /
         ((ms.length : Nat) : ℚ))))) ∈ runRatesQuery c1store c1qp :=
  ⟨by decide, c1_min_sample_and_rounded_mean c1store c1qp d2016 (by decide)⟩

/-- Helper: membership in the inclusive integer range. -/
theorem mem_intRange {a b x : Int} : x ∈ intRange a b ↔ a ≤ x ∧ x ≤ b := by
  rw [intRange]
  constructor
  · intro hx
    obtain ⟨i, hi, hix⟩ := List.mem_map.mp hx
    rw [List.mem_range] at hi
    omega
  · rintro ⟨hax, hxb⟩
    refine List.mem_map.mpr ⟨(x - a).toNat, ?_, ?_⟩
    · rw [List.mem_range]
      omega
    · omega

/-- Helper: the inclusive integer range is strictly increasing. -/
theorem intRange_pairwise (a b : Int) : List.Pairwise (· < ·) (intRange a b) := by
  rw [intRange]
  exact List.Pairwise.map _ (fun i j hij => by omega) (List.pairwise_lt_range _)

/-- Helper: length of the inclusive integer range. -/
theorem intRange_length (a b : Int) : (intRange a b).length = (b + 1 - a).toNat := by
  rw [intRange, List.length_map, List.length_range]

/-- Helper: two sorted duplicate-free integer lists with the same members
are equal. -/
theorem sorted_nodup_eq_of_mem_iff {l₁ l₂ : List Int}
    (s₁ : List.Pairwise (· ≤ ·) l₁) (s₂ : List.Pairwise (· ≤ ·) l₂)
    (n₁ : l₁.Nodup) (n₂ : l₂.Nodup) (hmem : ∀ x, x ∈ l₁ ↔ x ∈ l₂) : l₁ = l₂ :=
  List.eq_of_perm_of_sorted ((List.perm_ext_iff_of_nodup n₁ n₂).mpr hmem) s₁ s₂

/-- Helper: the group keys are sorted ascending (`ORDER BY d.day`). -/
theorem group_days_sorted (st : Store) (qp : QueryParams) :
    List.Pairwise (· ≤ ·) (group_days st qp) :=
  List.Pairwise.sublist (List.dedup_sublist _) (List.sorted_insertionSort _ _)

/-- Helper: when the calendar table covers the whole queried range, the
group keys are exactly the days of the range, ascending. -/
theorem group_days_eq_intRange (st : Store) (qp : QueryParams)
    (hcov : ∀ k : Int, qp.date_from ≤ k → k ≤ qp.date_to → k ∈ st.alldates) :
    group_days st qp = intRange qp.date_from qp.date_to := by
  refine sorted_nodup_eq_of_mem_iff (group_days_sorted st qp)
    ((intRange_pairwise _ _).imp le_of_lt) (List.nodup_dedup _)
    ((intRange_pairwise _ _).imp ne_of_lt) ?_
  intro x
  rw [mem_group_days_iff, mem_intRange]
  simp only [filtered_dates, List.mem_filter, Bool.and_eq_true, decide_eq_true_eq]
  constructor
  · rintro ⟨_, hx1, hx2⟩
    exact ⟨hx1, hx2⟩
  · rintro ⟨hx1, hx2⟩
    exact ⟨hcov x hx1 hx2, hx1, hx2⟩

/-- C2 (confirmed): provided the calendar table covers the queried
range (one of its duties per the data layout), executing the built query
yields exactly one row per calendar day of the inclusive range
`[date_from, date_to]` — `(date_to - date_from) + 1` rows in day order,
ascending, each with the day string and the day's aggregate — even for
days with zero matching observations. -/
theorem c2_one_row_per_day (st : Store) (qp : QueryParams)
    (h1 : qp.date_from ≤ qp.date_to)
    (h2 : ∀ k : Int, qp.date_from ≤ k → k ≤ qp.date_to → k ∈ st.alldates) :
    runRatesQuery st qp =
      (intRange qp.date_from qp.date_to).map
        (fun d => (to_char_yyyymmdd d, day_agg st qp d)) ∧
    (runRatesQuery st qp).length = (qp.date_to - qp.date_from).toNat + 1 ∧
    List.Pairwise (· < ·) (group_days st qp) := by
  have hg := group_days_eq_intRange st qp h2
  refine ⟨by rw [runRatesQuery, hg], ?_, by rw [hg]; exact intRange_pairwise _ _⟩
  rw [runRatesQuery, List.length_map, hg, intRange_length]
  omega

/-- Witness for C2: the two-day query on the covering calendar table
returns the two expected rows. -/
theorem c2_one_row_per_day_witness :
    d2016 ≤ d2016 + 1 ∧
    runRatesQuery c2store c2qp =
      (intRange d2016 (d2016 + 1)).map
        (fun d => (to_char_yyyymmdd d, day_agg c2store c2qp d)) ∧
    (runRatesQuery c2store c2qp).length = ((d2016 + 1) - d2016).toNat + 1 := by
  have h := c2_one_row_per_day c2store c2qp (by show d2016 ≤ d2016 + 1; omega) (by
    intro k hk1 hk2
    have hf : c2qp.date_from = d2016 := rfl
    have ht : c2qp.date_to = d2016 + 1 := rfl
    rw [hf] at hk1
    rw [ht] at hk2
    show k ∈ [d2016, d2016 + 1]
    simp only [List.mem_cons, List.mem_singleton, List.not_mem_nil, or_false]
    omega)
  exact ⟨by omega, h.1, h.2.1⟩

/-- C9 (confirmed): the result mapper produces exactly one record per
fetched row, in the same order, each record being the association of the
query's column names `(day, average_price)` with that row's values; no
reordering, filtering, or deduplication is performed. -/
theorem c9_result_mapper (results : List (List SqlValue)) :
    (get_data_rows rates_colnames results).length = results.length ∧
    (∀ i : Nat, (get_data_rows rates_colnames results)[i]? =
      (results[i]?).map fun row => rates_colnames.zip row) ∧
    rates_colnames = ["day", "average_price"] := by
  refine ⟨by simp [get_data_rows], fun i => ?_, rfl⟩
  simp [get_data_rows]

/-- C8 (confirmed): the query text produced by `construct_rates_sql`
depends only on the two classification flags; for any two contexts with the
same flags the text is identical, so none of the dynamic values (endpoint
codes, descendant sets, date bounds) can occur in it — they are passed only
in the bound-parameter dictionary. -/
theorem c8_sql_depends_only_on_flags (p1 p2 : NormState)
    (ho : p1.origin_is_region = p2.origin_is_region)
    (hd : p1.destination_is_region = p2.destination_is_region) :
    construct_rates_sql p1 = construct_rates_sql p2 := by
  simp only [construct_rates_sql, ho, hd]

/-- Witness for C8: two validated contexts with entirely different endpoint
codes, descendant sets and date bounds but equal flags produce the same
query text. -/
theorem c8_sql_depends_only_on_flags_witness :
    w8s1.origin_is_region = w8s2.origin_is_region ∧
    w8s1.destination_is_region = w8s2.destination_is_region ∧
    construct_rates_sql w8s1 = construct_rates_sql w8s2 :=
  ⟨rfl, rfl, c8_sql_depends_only_on_flags w8s1 w8s2 rfl rfl⟩

/-- C3 (counterexample): on the cyclic parent relation `a → b → a` the
resolver appends `"a"` again although it is already present (the list after
two iterations is `["a", "b", "a"]`, not duplicate-free), so it does not
track visited identifiers, and with fuel 10 — far beyond the two distinct
regions — the cursor still has not reached the end of the list. -/
theorem c3_counterexample :
    (expandLoop cycStore 2 ["a"] 0 []).1 = ["a", "b", "a"] ∧
    ¬ (expandLoop cycStore 2 ["a"] 0 []).1.Nodup ∧
    (get_all_regions_within cycStore 10 "a").1 = none := by
  exact ⟨by decide, by decide, by decide⟩

/-- C1 (counterexample): three observations of prices 1, 2, 2 on one
day give the exact mean 5/3; the query reports `average_price = 2`
(PostgreSQL's cast rounds to nearest), while truncation toward zero of 5/3
— what the claim states — is 1. -/
theorem c1_counterexample :
    (runRatesQuery c1store c1qp).map Prod.snd = [some 2] ∧
    ratTruncTowardZero ((1 + 2 + 2 : ℚ) / 3) = 1 ∧ ((2 : Int) ≠ 1) := by
  refine ⟨by decide, ?_, by decide⟩
  rw [show (1 + 2 + 2 : ℚ) / 3 = mkRat 5 3 by norm_num [Rat.mkRat_eq_div]]
  decide

end Ratestask
